import Mathlib

/-!
Verification of the screenshot-rounder repository against its specification.

The definitions below are a shallow embedding of `src/screenshot_rounder.py`:
`calculate_corner_radius`, `create_rounded_mask`, `apply_rounded_corners`
(its pure pixel part and its file-level part), `get_output_path`,
`process_screenshot`, `process_single_file` and the clipboard polling loop
`_monitor_clipboard_loop`.  Python floats used for the radius percentage are
modelled as rationals; Python `int()` truncation toward zero is `pyInt`;
file-system and clipboard effects are modelled as explicit action traces.
-/

/-- Model of the configuration dictionary keys that the core reads
(`config.get` with its defaults makes every key total). -/
structure Config where
  use_percentage : Bool
  corner_radius_percentage : ℚ
  corner_radius : ℤ
  save_to_desktop : Bool
  replace_original : Bool
  auto_copy_to_clipboard : Bool
  output_folder : List String

/-- Python `int()` on a real value: truncation toward zero. -/
def pyInt (q : ℚ) : ℤ := if q < 0 then ⌈q⌉ else ⌊q⌋

/-- Embedding of `ImageProcessor.calculate_corner_radius` (lines 125 to 139):
percentage mode takes `int(min(w, h) * percentage)`, fixed mode takes the
configured pixel value, and the result is clamped with `max(1, radius)`. -/
def calculate_corner_radius (cfg : Config) (width height : ℕ) : ℤ :=
  if cfg.use_percentage then
    max 1 (pyInt ((min width height : ℚ) * cfg.corner_radius_percentage))
  else
    max 1 cfg.corner_radius

/-- Model of a file-system path: directory components, stem and suffix,
mirroring `pathlib.Path` with `.stem` and `.suffix`. -/
structure SrcPath where
  dir : List String
  stem : String
  suffix : String
deriving DecidableEq, Repr

/-- Embedding of `ImageProcessor.get_output_path` (lines 224 to 248).
The first component is the returned destination (`none` models Python
`None`, clipboard-only mode); the second records whether the code calls
`output_dir.mkdir` (it does so only on the third branch). -/
def get_output_path_full (cfg : Config) (input : SrcPath) : Option SrcPath × Bool :=
  if cfg.save_to_desktop = false then
    (none, false)
  else if cfg.replace_original then
    (some input, false)
  else
    (some { dir := cfg.output_folder, stem := input.stem ++ "_rounded", suffix := input.suffix },
     true)

/-- The destination returned by `get_output_path`. -/
def get_output_path (cfg : Config) (input : SrcPath) : Option SrcPath :=
  (get_output_path_full cfg input).1

/-- One RGBA pixel; channels are byte values. -/
structure RGBA where
  r : ℕ
  g : ℕ
  b : ℕ
  a : ℕ
deriving DecidableEq, Repr

/-- In-memory decoded raster, the model of a PIL image in RGBA mode. -/
structure Img where
  width : ℕ
  height : ℕ
  pix : ℕ → ℕ → RGBA

/-- Whether a point lies in the closed disc of radius `r` around `(cx, cy)`. -/
def inDisk (x y cx cy r : ℤ) : Bool := decide ((x - cx) ^ 2 + (y - cy) ^ 2 ≤ r ^ 2)

/-- Geometric model of `ImageDraw.rounded_rectangle` on the box
`[(0, 0), (w - 1, h - 1)]` with radius `r` (lines 151 to 155): the filled
region is the two central bands plus the four corner quarter-discs. -/
def rounded_rect_contains (w h r : ℕ) (x y : ℕ) : Bool :=
  let W : ℤ := (w : ℤ) - 1
  let H : ℤ := (h : ℤ) - 1
  let R : ℤ := (r : ℤ)
  let X : ℤ := (x : ℤ)
  let Y : ℤ := (y : ℤ)
  decide (x < w) && decide (y < h) &&
    (decide (R ≤ X ∧ X ≤ W - R) || decide (R ≤ Y ∧ Y ≤ H - R) ||
      inDisk X Y R R R || inDisk X Y (W - R) R R ||
      inDisk X Y R (H - R) R || inDisk X Y (W - R) (H - R) R)

/-- Embedding of `ImageProcessor.create_rounded_mask` (lines 141 to 158):
a single-channel mask, 255 inside the rounded rectangle and 0 outside. -/
def create_rounded_mask (w h r : ℕ) (x y : ℕ) : ℕ :=
  if rounded_rect_contains w h r x y then 255 else 0

/-- Embedding of `img.putalpha(mask)` (line 193): the alpha channel is
replaced, per pixel, by the mask value; RGB is untouched. -/
def putalpha (img : Img) (mask : ℕ → ℕ → ℕ) : Img :=
  { width := img.width, height := img.height,
    pix := fun x y =>
      { r := (img.pix x y).r, g := (img.pix x y).g, b := (img.pix x y).b,
        a := mask x y } }

/-- The pure pixel-level part of `ImageProcessor.apply_rounded_corners`
(lines 170 to 194): compute the radius from the image size, build the
mask, and apply it with `putalpha`. -/
def round_corners_image (cfg : Config) (img : Img) : Img :=
  putalpha img
    (create_rounded_mask img.width img.height
      (calculate_corner_radius cfg img.width img.height).toNat)

/-- The default configuration of `get_default_config` (lines 64 to 78),
with the `save_to_desktop` key absent and hence read as `True`. -/
def demoCfg : Config :=
  { use_percentage := true, corner_radius_percentage := 1/20, corner_radius := 20,
    save_to_desktop := true, replace_original := false, auto_copy_to_clipboard := true,
    output_folder := ["Desktop", "rounded_screenshots"] }

/-- Clamping with `max 1` erases the difference between truncation toward
zero and the floor: for a negative argument both are nonpositive. -/
theorem max_one_pyInt (q : ℚ) : max 1 (pyInt q) = max 1 ⌊q⌋ := by
  unfold pyInt
  split
  · next h =>
    have hc : ⌈q⌉ ≤ (0 : ℤ) := Int.ceil_le.mpr (by exact_mod_cast h.le)
    have hf : ⌊q⌋ ≤ (0 : ℤ) := Int.floor_nonpos h.le
    rw [max_eq_left (hc.trans (by norm_num)), max_eq_left (hf.trans (by norm_num))]
  · rfl

/-- Claim C6: the radius policy returns `max(1, floor(min(w, h) * percentage))`
in percentage mode and `max(1, fixed)` otherwise, and a 1200 x 800 image with
percentage 0.05 yields radius 40. -/
theorem claim_C6_radius_formula :
    (∀ (cfg : Config) (w h : ℕ),
      calculate_corner_radius cfg w h =
        if cfg.use_percentage then
          max 1 ⌊(min w h : ℚ) * cfg.corner_radius_percentage⌋
        else
          max 1 cfg.corner_radius) ∧
    calculate_corner_radius demoCfg 1200 800 = 40 := by
  constructor
  · intro cfg w h
    unfold calculate_corner_radius
    split
    · next _ => rw [max_one_pyInt]
    · next _ => rfl
  · norm_num [calculate_corner_radius, demoCfg, pyInt]

/-- A configuration in fixed-pixel mode whose fixed radius is far larger
than the image. -/
def bigFixedCfg : Config :=
  { use_percentage := false, corner_radius_percentage := 1/20, corner_radius := 1000,
    save_to_desktop := true, replace_original := false, auto_copy_to_clipboard := true,
    output_folder := ["Desktop", "rounded_screenshots"] }

/-- Claim C5 counterexample: in fixed-pixel mode the radius policy performs
no upper clamp, so a 100 x 100 image with fixed radius 1000 yields 1000,
which exceeds `min(width, height) / 2 = 50`.  The claim asserted the bound
for every configuration. -/
theorem claim_C5_counterexample :
    calculate_corner_radius bigFixedCfg 100 100 = 1000 ∧
    ¬ calculate_corner_radius bigFixedCfg 100 100 ≤ ((min 100 100 / 2 : ℕ) : ℤ) := by
  constructor
  · norm_num [calculate_corner_radius, bigFixedCfg]
  · norm_num [calculate_corner_radius, bigFixedCfg]

/-- Claim C5 as amended: the lower clamp `radius ≥ 1` holds for every image
and configuration, but the upper bound `radius ≤ min(width, height) / 2`
holds only in percentage mode with percentage in `(0, 1/2]` and
`min(width, height) ≥ 2`; fixed-pixel mode has no upper clamp. -/
theorem claim_C5_amended (cfg : Config) (w h : ℕ) (hw : 0 < w) (hh : 0 < h) :
    1 ≤ calculate_corner_radius cfg w h ∧
    (cfg.use_percentage = true →
      0 < cfg.corner_radius_percentage →
      cfg.corner_radius_percentage ≤ 1 / 2 →
      2 ≤ min w h →
      calculate_corner_radius cfg w h ≤ ((min w h / 2 : ℕ) : ℤ)) := by
  constructor
  · unfold calculate_corner_radius
    split
    · exact le_max_left _ _
    · exact le_max_left _ _
  · intro hp hpos hhalf hmin
    unfold calculate_corner_radius
    rw [if_pos hp]
    have hq0 : (0 : ℚ) ≤ (min w h : ℚ) * cfg.corner_radius_percentage := by
      have : (0 : ℚ) ≤ (min w h : ℚ) := by positivity
      exact mul_nonneg this hpos.le
    have hpy : pyInt ((min w h : ℚ) * cfg.corner_radius_percentage) =
        ⌊(min w h : ℚ) * cfg.corner_radius_percentage⌋ := by
      unfold pyInt
      rw [if_neg (not_lt.mpr hq0)]
    rw [hpy]
    have hmono : ⌊(min w h : ℚ) * cfg.corner_radius_percentage⌋ ≤
        ⌊(min w h : ℚ) * (1 / 2)⌋ := by
      apply Int.floor_le_floor
      have : (0 : ℚ) ≤ (min w h : ℚ) := by positivity
      exact mul_le_mul_of_nonneg_left hhalf this
    have hhalfdiv : ⌊(min w h : ℚ) * (1 / 2)⌋ = ((min w h / 2 : ℕ) : ℤ) := by
      rw [mul_one_div, ← Nat.cast_min,
        show (2 : ℚ) = ((2 : ℕ) : ℚ) by norm_num]
      exact Rat.floor_natCast_div_natCast (min w h) 2
    have hone : (1 : ℤ) ≤ ((min w h / 2 : ℕ) : ℤ) := by
      have h1 : 1 ≤ min w h / 2 := (Nat.one_le_div_iff (by norm_num)).mpr hmin
      exact_mod_cast h1
    exact max_le hone (le_trans hmono (le_of_eq hhalfdiv))

/-- Witness for the amended claim C5: the default configuration on a
1200 x 800 image gives a radius within both bounds. -/
theorem claim_C5_amended_witness :
    1 ≤ calculate_corner_radius demoCfg 1200 800 ∧
    calculate_corner_radius demoCfg 1200 800 ≤ ((min 1200 800 / 2 : ℕ) : ℤ) := by
  have h := claim_C5_amended demoCfg 1200 800 (by norm_num) (by norm_num)
  exact ⟨h.1, h.2 rfl (by norm_num [demoCfg]) (by norm_num [demoCfg]) (by norm_num)⟩

/-- Configuration with desktop persistence disabled but replace-original
set, exposing the branch order of the output-path resolver. -/
def clipOnlyReplaceCfg : Config :=
  { use_percentage := true, corner_radius_percentage := 1/20, corner_radius := 20,
    save_to_desktop := false, replace_original := true, auto_copy_to_clipboard := true,
    output_folder := ["Desktop", "rounded_screenshots"] }

/-- Configuration that replaces originals with desktop persistence on. -/
def replaceCfg : Config :=
  { use_percentage := true, corner_radius_percentage := 1/20, corner_radius := 20,
    save_to_desktop := true, replace_original := true, auto_copy_to_clipboard := true,
    output_folder := ["Desktop", "rounded_screenshots"] }

/-- A sample screenshot path. -/
def samplePath : SrcPath := { dir := ["Desktop"], stem := "Screenshot", suffix := ".png" }

/-- Claim C4 counterexample: the resolver checks `save_to_desktop` before
`replace_original`, so with desktop persistence disabled and replace-original
configured it returns no destination rather than the source path, contrary
to the precedence stated by the claim. -/
theorem claim_C4_counterexample :
    clipOnlyReplaceCfg.replace_original = true ∧
    get_output_path clipOnlyReplaceCfg samplePath ≠ some samplePath := by
  constructor
  · rfl
  · simp [get_output_path, get_output_path_full, clipOnlyReplaceCfg]

/-- Claim C4 as amended: `save_to_desktop = false` dominates and yields no
persistent destination even when replace-original is configured; otherwise
replace-original yields the source path; otherwise the resolver returns
`<output_folder>/<stem>_rounded<ext>` and creates the output folder. -/
theorem claim_C4_amended (cfg : Config) (p : SrcPath) :
    (cfg.save_to_desktop = false → get_output_path_full cfg p = (none, false)) ∧
    (cfg.save_to_desktop = true → cfg.replace_original = true →
      get_output_path_full cfg p = (some p, false)) ∧
    (cfg.save_to_desktop = true → cfg.replace_original = false →
      get_output_path_full cfg p =
        (some { dir := cfg.output_folder, stem := p.stem ++ "_rounded",
                suffix := p.suffix }, true)) := by
  refine ⟨fun hs => ?_, fun hs hr => ?_, fun hs hr => ?_⟩
  · simp [get_output_path_full, hs]
  · simp [get_output_path_full, hs, hr]
  · simp [get_output_path_full, hs, hr]

/-- Witness for the amended claim C4, exercising all three branches. -/
theorem claim_C4_amended_witness :
    get_output_path_full clipOnlyReplaceCfg samplePath = (none, false) ∧
    get_output_path_full replaceCfg samplePath = (some samplePath, false) ∧
    get_output_path_full demoCfg samplePath =
      (some { dir := demoCfg.output_folder, stem := samplePath.stem ++ "_rounded",
              suffix := samplePath.suffix }, true) :=
  ⟨(claim_C4_amended clipOnlyReplaceCfg samplePath).1 rfl,
   (claim_C4_amended replaceCfg samplePath).2.1 rfl rfl,
   (claim_C4_amended demoCfg samplePath).2.2 rfl rfl⟩

/-- Claim C7: re-applying the rounded-corner transform replaces the alpha
channel with the freshly computed mask rather than multiplying it into the
existing alpha, so the second application yields exactly the alpha of the
first application (same computed radius, since the size is preserved). -/
theorem claim_C7_alpha_replace (cfg : Config) (img : Img) (x y : ℕ) :
    ((round_corners_image cfg (round_corners_image cfg img)).pix x y).a =
      ((round_corners_image cfg img).pix x y).a ∧
    ((round_corners_image cfg img).pix x y).a =
      create_rounded_mask img.width img.height
        (calculate_corner_radius cfg img.width img.height).toNat x y :=
  ⟨rfl, rfl⟩

/-- Claim C10: the transform preserves the dimensions and the RGB channels
of every pixel of the RGBA input; only the alpha channel is modified. -/
theorem claim_C10_rgb_preserved (cfg : Config) (img : Img) :
    (round_corners_image cfg img).width = img.width ∧
    (round_corners_image cfg img).height = img.height ∧
    ∀ x y, ((round_corners_image cfg img).pix x y).r = (img.pix x y).r ∧
      ((round_corners_image cfg img).pix x y).g = (img.pix x y).g ∧
      ((round_corners_image cfg img).pix x y).b = (img.pix x y).b :=
  ⟨rfl, rfl, fun _ _ => ⟨rfl, rfl, rfl⟩⟩

/-- Observable effects of one trigger-path execution, in program order:
guard bookkeeping on `processing_files`, the call into
`apply_rounded_corners`, file writes and deletions, and clipboard writes. -/
inductive Eff where
  | guardAcquire : SrcPath → Eff
  | guardRelease : SrcPath → Eff
  | invokeTransform : SrcPath → Eff
  | saveFile : SrcPath → Eff
  | unlinkFile : SrcPath → Eff
  | clipWrite : SrcPath → Eff
deriving DecidableEq, Repr

/-- The fresh temporary file created by `tempfile.NamedTemporaryFile` inside
`apply_rounded_corners` (lines 208 to 212); `n` is a freshness counter. -/
def tempPath (n : ℕ) : SrcPath :=
  { dir := ["tmp"], stem := "tmp" ++ toString n, suffix := ".png" }

/-- The fresh staging file created by `_save_clipboard_to_temp`
(lines 385 to 405), with its `clipboard_` prefix. -/
def clipTempPath (n : ℕ) : SrcPath :=
  { dir := ["tmp"], stem := "clipboard_" ++ toString n, suffix := ".png" }

/-- File-level embedding of `ImageProcessor.apply_rounded_corners`
(lines 160 to 222).  `decode` models `Image.open`: `none` means the open or
decode raised, which the enclosing `except` turns into a `None` return with
nothing written.  On success the image is saved to the resolved output path,
or to a fresh temporary file when the resolver returns `None`.  The result
is the returned path, the effect trace, and the next freshness counter. -/
def apply_rounded_corners (cfg : Config) (decode : SrcPath → Option Img)
    (input : SrcPath) (ctr : ℕ) : Option SrcPath × List Eff × ℕ :=
  match decode input with
  | none => (none, [Eff.invokeTransform input], ctr)
  | some _ =>
    match get_output_path cfg input with
    | some out =>
      (some out, [Eff.invokeTransform input, Eff.saveFile out], ctr)
    | none =>
      (some (tempPath ctr),
       [Eff.invokeTransform input, Eff.saveFile (tempPath ctr)], ctr + 1)

/-- Embedding of `ScreenshotHandler.process_screenshot` (lines 464 to 504):
skip when the identity is already in `processing_files`; otherwise add it,
bail out if the file vanished, run the transform, optionally copy the
result to the clipboard, and always discard the identity in `finally`.
Returns the final `processing_files` set, the effect trace, and the next
freshness counter. -/
def process_screenshot (cfg : Config) (decode : SrcPath → Option Img)
    (fileExists : SrcPath → Bool) (st : List SrcPath) (fp : SrcPath) (ctr : ℕ) :
    List SrcPath × List Eff × ℕ :=
  if fp ∈ st then (st, [], ctr)
  else if fileExists fp = false then
    (st, [Eff.guardAcquire fp, Eff.guardRelease fp], ctr)
  else
    let ar := apply_rounded_corners cfg decode fp ctr
    match ar.1 with
    | none =>
      (st, Eff.guardAcquire fp :: ar.2.1 ++ [Eff.guardRelease fp], ar.2.2)
    | some out =>
      (st,
       Eff.guardAcquire fp :: ar.2.1 ++
         (if cfg.auto_copy_to_clipboard then [Eff.clipWrite out] else []) ++
         [Eff.guardRelease fp],
       ar.2.2)

/-- Embedding of `ScreenshotRounder.process_single_file` (lines 614 to 637):
no guard interaction at all; the transform runs directly, followed by the
optional clipboard copy. -/
def process_single_file (cfg : Config) (decode : SrcPath → Option Img)
    (fileExists : SrcPath → Bool) (p : SrcPath) (ctr : ℕ) :
    Bool × List Eff × ℕ :=
  if fileExists p = false then (false, [], ctr)
  else
    let ar := apply_rounded_corners cfg decode p ctr
    match ar.1 with
    | none => (false, ar.2.1, ar.2.2)
    | some out =>
      (true,
       ar.2.1 ++ (if cfg.auto_copy_to_clipboard then [Eff.clipWrite out] else []),
       ar.2.2)

/-- State of the clipboard polling loop: the `last_clipboard_content`
field, the current clipboard payload (image bytes as a number, `none` for
no image), and the temp-file freshness counter. -/
structure ClipState where
  lastSeen : Option ℕ
  clipboard : Option ℕ
  ctr : ℕ
deriving DecidableEq, Repr

/-- One iteration of `ClipboardManager._monitor_clipboard_loop`
(lines 352 to 379).  When the clipboard holds an image that differs from
`last_clipboard_content`, the bytes are staged to a fresh `clipboard_` temp
file, `apply_rounded_corners` runs on it, a successful output is written
back to the clipboard (`copy_image_to_clipboard` reads the output file, so
the clipboard afterwards holds the encoded transformed image), the temp
files are removed, and `last_clipboard_content` is set to the bytes that
were read at the start of the iteration.  `decodeBytes` models decoding
the staged bytes and `encode` models PNG serialisation of the result. -/
def clipboard_poll_iteration (cfg : Config) (decodeBytes : ℕ → Option Img)
    (encode : Img → ℕ) (st : ClipState) : ClipState × List Eff :=
  match st.clipboard with
  | none => (st, [])
  | some c =>
    if st.lastSeen = some c then (st, [])
    else
      let temp := clipTempPath st.ctr
      let ar := apply_rounded_corners cfg (fun _ => decodeBytes c) temp (st.ctr + 1)
      match ar.1 with
      | none =>
        ({ lastSeen := some c, clipboard := st.clipboard, ctr := ar.2.2 },
         Eff.saveFile temp :: ar.2.1 ++ [Eff.unlinkFile temp])
      | some out =>
        ({ lastSeen := some c,
           clipboard := match decodeBytes c with
             | some img => some (encode (round_corners_image cfg img))
             | none => st.clipboard,
           ctr := ar.2.2 },
         Eff.saveFile temp :: ar.2.1 ++ [Eff.clipWrite out] ++
           Eff.unlinkFile temp ::
             (if out = temp then [] else [Eff.unlinkFile out]))

/-- Whether an effect is a DispatchGuard acquisition. -/
def Eff.isAcquire : Eff → Bool
  | Eff.guardAcquire _ => true
  | _ => false

/-- Whether an effect is a transform-service invocation. -/
def Eff.isInvoke : Eff → Bool
  | Eff.invokeTransform _ => true
  | _ => false

/-- Whether an effect deletes a file. -/
def Eff.isUnlink : Eff → Bool
  | Eff.unlinkFile _ => true
  | _ => false

/-- Scan of a trace checking that every transform invocation is preceded by
a guard acquisition of the same identity; `acc` holds identities acquired
so far. -/
def guardedFrom : List Eff → List SrcPath → Bool
  | [], _ => true
  | Eff.guardAcquire p :: rest, acc => guardedFrom rest (p :: acc)
  | Eff.invokeTransform p :: rest, acc => decide (p ∈ acc) && guardedFrom rest acc
  | _ :: rest, acc => guardedFrom rest acc

/-- A trace is guarded when each transform invocation follows an earlier
guard acquisition of its identity. -/
def guarded (tr : List Eff) : Bool := guardedFrom tr []

/-- An all-white opaque test image. -/
def whiteImg : Img :=
  { width := 100, height := 100, pix := fun _ _ => { r := 255, g := 255, b := 255, a := 255 } }

/-- A decoder for which every payload decodes to the white test image. -/
def decodeAllBytes : ℕ → Option Img := fun _ => some whiteImg

/-- A serialiser that encodes every image to the payload 1. -/
def encodeOne : Img → ℕ := fun _ => 1

/-- Initial poll-loop state: no last-seen payload, clipboard holds bytes 0. -/
def clipStart : ClipState := { lastSeen := none, clipboard := some 0, ctr := 0 }

/-- Claim C1 counterexample: a clipboard poll iteration that detects new
content invokes the transform service with no DispatchGuard acquisition at
all, so its trace is not guarded. -/
theorem claim_C1_counterexample :
    ((clipboard_poll_iteration demoCfg decodeAllBytes encodeOne clipStart).2).any
      Eff.isInvoke = true ∧
    guarded (clipboard_poll_iteration demoCfg decodeAllBytes encodeOne clipStart).2 =
      false := by
  decide

/-- Claim C1 as amended: only the filesystem trigger path brackets the
transform invocation with a DispatchGuard acquire of the identity; the
clipboard polling path and the manual single-file path invoke the transform
service directly, with no guard acquisition anywhere in their traces (the
clipboard path deduplicates only by byte comparison against the last seen
payload). -/
theorem claim_C1_amended (cfg : Config) (decode : SrcPath → Option Img)
    (fileExists : SrcPath → Bool) (st : List SrcPath) (fp : SrcPath) (ctr : ℕ)
    (decodeBytes : ℕ → Option Img) (encode : Img → ℕ) (cst : ClipState)
    (p : SrcPath) :
    guarded (process_screenshot cfg decode fileExists st fp ctr).2.1 = true ∧
    ((clipboard_poll_iteration cfg decodeBytes encode cst).2).all
      (fun a => ! a.isAcquire) = true ∧
    ((process_single_file cfg decode fileExists p ctr).2.1).all
      (fun a => ! a.isAcquire) = true := by
  refine ⟨?_, ?_, ?_⟩
  · unfold process_screenshot
    split
    · rfl
    · split
      · rfl
      · cases hdec : decode fp with
        | none =>
          simp [apply_rounded_corners, hdec, guarded, guardedFrom]
        | some img =>
          cases hout : get_output_path cfg fp with
          | some out =>
            cases hc : cfg.auto_copy_to_clipboard <;>
              simp [apply_rounded_corners, hdec, hout, hc, guarded, guardedFrom]
          | none =>
            cases hc : cfg.auto_copy_to_clipboard <;>
              simp [apply_rounded_corners, hdec, hout, hc, guarded, guardedFrom]
  · obtain ⟨ls, cb, k⟩ := cst
    cases cb with
    | none => rfl
    | some c =>
      simp only [clipboard_poll_iteration]
      split
      · rfl
      · cases hdec : decodeBytes c with
        | none =>
          simp [apply_rounded_corners, hdec, Eff.isAcquire]
        | some img =>
          cases hout : get_output_path cfg (clipTempPath k) with
          | some out =>
            by_cases hot : out = clipTempPath k <;>
              simp [apply_rounded_corners, hdec, hout, hot, Eff.isAcquire]
          | none =>
            simp [apply_rounded_corners, hdec, hout, Eff.isAcquire]
  · unfold process_single_file
    split
    · rfl
    · cases hdec : decode p with
      | none =>
        simp [apply_rounded_corners, hdec, Eff.isAcquire]
      | some img =>
        cases hout : get_output_path cfg p with
        | some out =>
          cases hc : cfg.auto_copy_to_clipboard <;>
            simp [apply_rounded_corners, hdec, hout, hc, Eff.isAcquire]
        | none =>
          cases hc : cfg.auto_copy_to_clipboard <;>
            simp [apply_rounded_corners, hdec, hout, hc, Eff.isAcquire]

/-- Path of sample screenshot A. -/
def pathA : SrcPath := { dir := ["Desktop"], stem := "ScreenshotA", suffix := ".png" }

/-- Path of sample screenshot B. -/
def pathB : SrcPath := { dir := ["Desktop"], stem := "ScreenshotB", suffix := ".png" }

/-- Claim C8: a source that fails to decode makes the transform return no
artifact with no file written (the exception is swallowed inside
`apply_rounded_corners`), the enclosing `process_screenshot` still restores
the guard set and returns normally with the release in its trace, and a
subsequent ticket whose source decodes still invokes the transform. -/
theorem claim_C8_decode_failure (cfg : Config) (decode : SrcPath → Option Img)
    (fileExists : SrcPath → Bool) (st : List SrcPath) (fp fp2 : SrcPath) (ctr : ℕ)
    (hdec : decode fp = none) :
    apply_rounded_corners cfg decode fp ctr = (none, [Eff.invokeTransform fp], ctr) ∧
    (fp ∉ st → fileExists fp = true →
      process_screenshot cfg decode fileExists st fp ctr =
        (st, [Eff.guardAcquire fp, Eff.invokeTransform fp, Eff.guardRelease fp], ctr)) ∧
    (fp2 ∉ st → fileExists fp2 = true → decode fp2 ≠ none →
      ((process_screenshot cfg decode fileExists st fp2 ctr).2.1).any
        Eff.isInvoke = true) := by
  refine ⟨?_, ?_, ?_⟩
  · simp [apply_rounded_corners, hdec]
  · intro hmem hex
    simp [process_screenshot, hmem, hex, apply_rounded_corners, hdec]
  · intro hmem hex hdec2
    cases hd2 : decode fp2 with
    | none => exact absurd hd2 hdec2
    | some img =>
      cases hout : get_output_path cfg fp2 with
      | some out =>
        cases hc : cfg.auto_copy_to_clipboard <;>
          simp [process_screenshot, hmem, hex, apply_rounded_corners, hd2, hout, hc,
            Eff.isInvoke]
      | none =>
        cases hc : cfg.auto_copy_to_clipboard <;>
          simp [process_screenshot, hmem, hex, apply_rounded_corners, hd2, hout, hc,
            Eff.isInvoke]

/-- Decoder under which screenshot A is corrupt and everything else is the
white test image. -/
def decodeCorruptA : SrcPath → Option Img :=
  fun p => if p = pathA then none else some whiteImg

/-- File-existence oracle that reports every path as present. -/
def existsAll : SrcPath → Bool := fun _ => true

/-- Witness for claim C8: the corrupt screenshot A yields no artifact and a
balanced guard trace, and screenshot B is still transformed afterwards. -/
theorem claim_C8_decode_failure_witness :
    apply_rounded_corners demoCfg decodeCorruptA pathA 0 =
      (none, [Eff.invokeTransform pathA], 0) ∧
    process_screenshot demoCfg decodeCorruptA existsAll [] pathA 0 =
      ([], [Eff.guardAcquire pathA, Eff.invokeTransform pathA,
        Eff.guardRelease pathA], 0) ∧
    ((process_screenshot demoCfg decodeCorruptA existsAll [] pathB 0).2.1).any
      Eff.isInvoke = true := by
  have h := claim_C8_decode_failure demoCfg decodeCorruptA existsAll [] pathA pathB 0 rfl
  exact ⟨h.1, h.2.1 (by decide) rfl,
    h.2.2 (by decide) rfl (fun hcontra => Option.noConfusion hcontra)⟩

/-- Configuration of end-to-end scenario 3: desktop persistence off,
clipboard auto-copy on. -/
def clipOnlyCfg : Config :=
  { use_percentage := true, corner_radius_percentage := 1/20, corner_radius := 20,
    save_to_desktop := false, replace_original := false, auto_copy_to_clipboard := true,
    output_folder := ["Desktop", "rounded_screenshots"] }

/-- Decoder for which every source decodes to the white test image. -/
def decodeWhite : SrcPath → Option Img := fun _ => some whiteImg

/-- Claim C9 counterexample: in the filesystem trigger path with
`save_to_desktop = false` and `auto_copy_to_clipboard = true`, the ephemeral
artifact is saved to a temporary file and copied to the clipboard but never
deleted — its deletion never appears in the trace — so an ephemeral file
remains on disk after processing completes, contrary to the claim. -/
theorem claim_C9_counterexample :
    Eff.saveFile (tempPath 0) ∈
      (process_screenshot clipOnlyCfg decodeWhite existsAll [] pathA 0).2.1 ∧
    Eff.clipWrite (tempPath 0) ∈
      (process_screenshot clipOnlyCfg decodeWhite existsAll [] pathA 0).2.1 ∧
    Eff.unlinkFile (tempPath 0) ∉
      (process_screenshot clipOnlyCfg decodeWhite existsAll [] pathA 0).2.1 := by
  decide

/-- Check that every file saved during a trace is also deleted in it. -/
def savesAllRemoved (tr : List Eff) : Bool :=
  tr.all (fun a =>
    match a with
    | Eff.saveFile p => tr.any (fun b => b = Eff.unlinkFile p)
    | _ => true)

/-- Claim C9 as amended: the clipboard trigger deletes every file it
creates — the staged temp and the produced artifact alike, persistent
destinations included — while the filesystem trigger path deletes nothing,
so an ephemeral temp artifact created under `save_to_desktop = false`
remains on disk after the clipboard write. -/
theorem claim_C9_amended (cfg : Config) (decodeBytes : ℕ → Option Img)
    (encode : Img → ℕ) (cst : ClipState) (decode : SrcPath → Option Img)
    (fileExists : SrcPath → Bool) (st : List SrcPath) (fp : SrcPath) (ctr : ℕ) :
    savesAllRemoved (clipboard_poll_iteration cfg decodeBytes encode cst).2 = true ∧
    ((process_screenshot cfg decode fileExists st fp ctr).2.1).all
      (fun a => ! a.isUnlink) = true := by
  constructor
  · obtain ⟨ls, cb, k⟩ := cst
    cases cb with
    | none => rfl
    | some c =>
      simp only [clipboard_poll_iteration]
      split
      · rfl
      · cases hdec : decodeBytes c with
        | none =>
          simp [apply_rounded_corners, hdec, savesAllRemoved]
        | some img =>
          cases hout : get_output_path cfg (clipTempPath k) with
          | some out =>
            by_cases hot : out = clipTempPath k <;>
              simp [apply_rounded_corners, hdec, hout, hot, savesAllRemoved]
          | none =>
            by_cases hot : tempPath (k + 1) = clipTempPath k <;>
              simp [apply_rounded_corners, hdec, hout, hot, savesAllRemoved]
  · unfold process_screenshot
    split
    · rfl
    · split
      · rfl
      · cases hdec : decode fp with
        | none =>
          simp [apply_rounded_corners, hdec, Eff.isUnlink]
        | some img =>
          cases hout : get_output_path cfg fp with
          | some out =>
            cases hc : cfg.auto_copy_to_clipboard <;>
              simp [apply_rounded_corners, hdec, hout, hc, Eff.isUnlink]
          | none =>
            cases hc : cfg.auto_copy_to_clipboard <;>
              simp [apply_rounded_corners, hdec, hout, hc, Eff.isUnlink]

/-- Events of an interleaved execution of `process_screenshot` calls: a
`start` is the entry check of `processing_files` plus, when the identity is
free, the `add`; a `finish` is the `finally` discard of a call that had
added its identity.  Distinct identities may be in flight between their
start and finish, which models the concurrent trigger threads. -/
inductive ReqEvent where
  | start : SrcPath → ReqEvent
  | finish : SrcPath → ReqEvent
deriving DecidableEq, Repr

/-- Interleaved simulation of the guard discipline of `process_screenshot`
(lines 464 to 504): the result carries the final `processing_files` set,
the identities whose transform was invoked (starts that acquired), and the
identities released by a `finally`.  A start for an identity already in the
set is a skip: no invocation, no state change. -/
def guardSim (st : List SrcPath) : List ReqEvent → List SrcPath × List SrcPath × List SrcPath
  | [] => (st, [], [])
  | ReqEvent.start fp :: evs =>
    if fp ∈ st then guardSim st evs
    else
      ((guardSim (fp :: st) evs).1,
       fp :: (guardSim (fp :: st) evs).2.1,
       (guardSim (fp :: st) evs).2.2)
  | ReqEvent.finish fp :: evs =>
    ((guardSim (st.erase fp) evs).1,
     (guardSim (st.erase fp) evs).2.1,
     fp :: (guardSim (st.erase fp) evs).2.2)

/-- Well-formed executions: a finish only happens for an identity currently
held, because every release comes from the `finally` of the very call that
added the identity. -/
inductive WFRun : List SrcPath → List ReqEvent → Prop
  | nil (st : List SrcPath) : WFRun st []
  | startMem (st : List SrcPath) (fp : SrcPath) (evs : List ReqEvent) :
      fp ∈ st → WFRun st evs → WFRun st (ReqEvent.start fp :: evs)
  | startNew (st : List SrcPath) (fp : SrcPath) (evs : List ReqEvent) :
      fp ∉ st → WFRun (fp :: st) evs → WFRun st (ReqEvent.start fp :: evs)
  | finish (st : List SrcPath) (fp : SrcPath) (evs : List ReqEvent) :
      fp ∈ st → WFRun (st.erase fp) evs → WFRun st (ReqEvent.finish fp :: evs)

/-- Conservation of guard entries along a well-formed run: entries still in
flight plus released entries balance the initial entries plus acquiring
invocations, identity by identity. -/
theorem guardSim_count (evs : List ReqEvent) (st : List SrcPath) (fp : SrcPath)
    (hwf : WFRun st evs) :
    (guardSim st evs).1.count fp + ((guardSim st evs).2.2).count fp =
      st.count fp + ((guardSim st evs).2.1).count fp := by
  induction hwf with
  | nil s => simp [guardSim]
  | startMem s g evs2 hmem _ ih =>
    simpa [guardSim, if_pos hmem] using ih
  | startNew s g evs2 hmem _ ih =>
    by_cases hg : g = fp
    · subst hg
      simp only [guardSim, if_neg hmem, List.count_cons_self] at ih ⊢
      omega
    · simp only [guardSim, if_neg hmem, List.count_cons_of_ne (Ne.symm hg)] at ih ⊢
      omega
  | finish s g evs2 hmem _ ih =>
    by_cases hg : g = fp
    · subst hg
      have hpos : 1 ≤ s.count g := List.count_pos_iff.mpr hmem
      have herase : (s.erase g).count g = s.count g - 1 := List.count_erase_self g s
      simp only [guardSim, List.count_cons_self] at ih ⊢
      omega
    · have herase : (s.erase g).count fp = s.count fp :=
        List.count_erase_of_ne (fun he => hg he.symm) s
      simp only [guardSim, List.count_cons_of_ne (Ne.symm hg)] at ih ⊢
      omega

/-- The guard set never accumulates duplicate identities along a
well-formed run starting from a duplicate-free set. -/
theorem guardSim_nodup (evs : List ReqEvent) (st : List SrcPath)
    (hwf : WFRun st evs) : st.Nodup → (guardSim st evs).1.Nodup := by
  induction hwf with
  | nil s => intro h; simpa [guardSim] using h
  | startMem s g evs2 hmem _ ih =>
    intro h
    simpa [guardSim, if_pos hmem] using ih h
  | startNew s g evs2 hmem _ ih =>
    intro h
    simpa [guardSim, if_neg hmem] using ih (List.nodup_cons.mpr ⟨hmem, h⟩)
  | finish s g evs2 hmem _ ih =>
    intro h
    simpa [guardSim] using ih (h.erase g)

/-- Claim C3: over any well-formed interleaving of filesystem-trigger
requests, a start for an identity already in flight is skipped with no
transform invocation and no state change; when every acquiring invocation
is balanced by a release (ensured by the always-executed `finally`), the
final in-flight set is empty, so no entries leak; and starting from a
duplicate-free set the in-flight set never holds an identity twice, so at
most one transform per identity is in flight at any point of any
well-formed run. -/
theorem claim_C3_guard_invariant (evs : List ReqEvent) (hwf : WFRun [] evs)
    (hbal : ∀ fp, ((guardSim [] evs).2.2).count fp =
      ((guardSim [] evs).2.1).count fp) :
    (guardSim [] evs).1 = [] ∧
    (∀ (st : List SrcPath) (fp : SrcPath) (evs2 : List ReqEvent), fp ∈ st →
      guardSim st (ReqEvent.start fp :: evs2) = guardSim st evs2) ∧
    (∀ (evs2 : List ReqEvent) (st : List SrcPath), WFRun st evs2 → st.Nodup →
      (guardSim st evs2).1.Nodup) := by
  refine ⟨?_, ?_, fun evs2 st h hnd => guardSim_nodup evs2 st h hnd⟩
  · refine List.eq_nil_iff_forall_not_mem.mpr (fun fp hmem => ?_)
    have hc := guardSim_count evs [] fp hwf
    have hb := hbal fp
    have hpos := List.count_pos_iff.mpr hmem
    simp only [List.count_nil] at hc
    omega
  · intro st fp evs2 hmem
    simp [guardSim, if_pos hmem]

/-- Interleaved demo schedule: screenshot A starts, a duplicate start of A
is skipped, B starts while A is still in flight, then both finish. -/
def demoEvents : List ReqEvent :=
  [ReqEvent.start pathA, ReqEvent.start pathA, ReqEvent.start pathB,
   ReqEvent.finish pathA, ReqEvent.finish pathB]

/-- Witness for claim C3 on the demo schedule: the guard set drains to
empty once all requests resolve. -/
theorem claim_C3_guard_invariant_witness :
    (guardSim [] demoEvents).1 = [] :=
  (claim_C3_guard_invariant demoEvents
    (WFRun.startNew _ _ _ (by decide)
      (WFRun.startMem _ _ _ (by decide)
        (WFRun.startNew _ _ _ (by decide)
          (WFRun.finish _ _ _ (by decide)
            (WFRun.finish _ _ _ (by decide) (WFRun.nil _))))))
    (fun fp => rfl)).1

/-- Claim C2 demonstration of the code defect at a concrete failing input.
Starting with no last-seen payload and clipboard bytes 0, one poll
iteration transforms the staged image and writes the encoded output
(bytes 1) back to the clipboard, but line 377 records the original bytes 0
as `last_clipboard_content`; the very next poll therefore classifies the
clipboard as changed and dispatches a second transform, with no external
clipboard write in between.  The final two conjuncts ground the premise
that the transform genuinely changes the payload: the corner pixel of the
opaque white test image becomes fully transparent, so the re-encoded bytes
differ from the original. -/
theorem claim_C2_feedback_loop_bug :
    ((clipboard_poll_iteration demoCfg decodeAllBytes encodeOne clipStart).1).lastSeen
      = some 0 ∧
    ((clipboard_poll_iteration demoCfg decodeAllBytes encodeOne clipStart).1).clipboard
      = some 1 ∧
    ((clipboard_poll_iteration demoCfg decodeAllBytes encodeOne
        (clipboard_poll_iteration demoCfg decodeAllBytes encodeOne clipStart).1).2).any
      Eff.isInvoke = true ∧
    ((round_corners_image demoCfg whiteImg).pix 0 0).a = 0 ∧
    (whiteImg.pix 0 0).a = 255 := by
  refine ⟨by decide, by decide, by decide, ?_, rfl⟩
  have hrad5 : calculate_corner_radius demoCfg 100 100 = 5 := by
    norm_num [calculate_corner_radius, demoCfg, pyInt]
  have hrad : (calculate_corner_radius demoCfg 100 100).toNat = 5 := by
    rw [hrad5]
    rfl
  simp only [round_corners_image, putalpha, whiteImg]
  rw [hrad]
  decide
